import Mathlib

/-!
Shallow embedding of the Soroban contract in
`src/SnbFi/SnbFiV01/contracts/hello_world/src/lib.rs` (the `HelloContract`
implementation of `SnbPoolTrait`), together with proofs about its operations.

Modelling conventions:
* `Address` is an opaque identity, modelled as `Nat`.
* The contract's instance storage is a `Ledger` with two slots, mirroring the
  `STATE` and `INITD` symbols: an optional `State` and an optional `Bool`.
* `u32` values are `Nat`; the single subtraction in the source
  (`pool_iteration.amount_collected - prize_amount`, lib.rs line 182) is
  modelled with wrapping semantics modulo `2^32`, the behaviour of release-mode
  `u32` subtraction in the absence of an overflow guard.
* A Rust `panic!` or a failing `unwrap()` is a distinguishable error; each
  operation returns `Except Err α × Ledger`, the second component being the
  storage after the call (writes happen at the point of `storage().set`, so a
  failure returns the storage written so far).
* `require_auth` is modelled by an authorization oracle `auth : Address → Bool`
  supplied by the host environment to the operations that call it.
-/

namespace SnbFi

/-- Participant identity (Soroban `Address`), opaque to the contract. -/
abbrev Address := Nat

/-- `Frequency` from lib.rs. -/
inductive Frequency
  | DAY
  | WEEK
  | MONTH
deriving DecidableEq, Repr

/-- `Subscriber` from lib.rs. -/
structure Subscriber where
  winner_at_iter : Nat
  prize_money : Nat
  prev_due_amount : Nat
deriving DecidableEq, Repr

/-- `PoolParams` from lib.rs. -/
structure PoolParams where
  no_of_subs : Nat
  frequency : Frequency
  sub_amount : Nat
  pool_owner : Address
deriving DecidableEq, Repr

/-- `PoolIterationParams` from lib.rs. -/
structure PoolIterationParams where
  current_iteration : Nat
  amount_collected : Nat
  winner : Address
  prize_money : Nat
  dividend_amount : Nat
deriving DecidableEq, Repr

/-- `soroban_sdk::Map.set`: insert or update a key. -/
def mapSet {α β : Type} [DecidableEq α] (k : α) (v : β) : List (α × β) → List (α × β)
  | [] => [(k, v)]
  | (k', v') :: rest => if k = k' then (k, v) :: rest else (k', v') :: mapSet k v rest

/-- `soroban_sdk::Map.get`: look a key up. -/
def mapGet {α β : Type} [DecidableEq α] (k : α) : List (α × β) → Option β
  | [] => none
  | (k', v') :: rest => if k = k' then some v' else mapGet k rest

/-- `soroban_sdk::Map.contains_key`. -/
def containsKey {α β : Type} [DecidableEq α] (k : α) (m : List (α × β)) : Bool :=
  (mapGet k m).isSome

/-- `State` from lib.rs (field names kept, including the source's spelling). -/
structure State where
  pool_params : PoolParams
  current_iteration : Nat
  subcriber_map : List (Address × Subscriber)
  pool_iteration_map : List (Nat × PoolIterationParams)
deriving DecidableEq, Repr

/-- The contract's instance storage: the `STATE` slot and the `INITD` slot. -/
structure Ledger where
  state : Option State
  initd : Option Bool
deriving DecidableEq, Repr

/-- The distinguishable failures of the contract's operations (§7 of the
design).  `ArithmeticUnderflow` is part of the intended taxonomy; the code as
written never produces it (see `set_pool_winner`). -/
inductive Err
  | AlreadyInitialized
  | NotInitialized
  | Unauthorized
  | AlreadyMember
  | SubscriberNotFound
  | IterationNotFound
  | AlreadyWinner
  | ArithmeticUnderflow
deriving DecidableEq, Repr

/-- `2^32`, the modulus of `u32` arithmetic. -/
def U32 : Nat := 4294967296

/-- Wrapping `u32` subtraction: the release-mode behaviour of `a - b` on `u32`
operands with no underflow guard (lib.rs line 182). -/
def u32sub (a b : Nat) : Nat := (a + U32 - b % U32) % U32

/-- `get_state` (lib.rs lines 106-109): `storage.get(&STATE).unwrap()`; the
`unwrap` of a missing `STATE` slot is the `NotInitialized` failure. -/
def get_state (l : Ledger) : Except Err State :=
  match l.state with
  | some s => Except.ok s
  | none => Except.error Err.NotInitialized

/-- `initialize` (lib.rs lines 111-140), named `initPool` here because
`initialize` is a Lean keyword.  Order of effects follows the source exactly:
read the `INITD` flag (`unwrap_or_default`), panic if set, read the state via
`get_state` (an `unwrap` that fails when `STATE` is absent), `require_auth`,
then build the params and the owner's subscriber record and write both slots. -/
def initPool (auth : Address → Bool) (user : Address) (no_of_subs amount : Nat)
    (frequency : Frequency) (l : Ledger) : Except Err Unit × Ledger :=
  if l.initd.getD false then
    (Except.error Err.AlreadyInitialized, l)
  else
    match get_state l with
    | Except.error e => (Except.error e, l)
    | Except.ok state =>
      if auth user then
        let pool_params : PoolParams :=
          { no_of_subs := no_of_subs, frequency := frequency,
            sub_amount := amount, pool_owner := user }
        let state := { state with pool_params := pool_params }
        let subscriber : Subscriber :=
          { winner_at_iter := 0, prev_due_amount := 0, prize_money := 0 }
        let state := { state with subcriber_map := mapSet user subscriber state.subcriber_map }
        (Except.ok (), { l with state := some state, initd := some true })
      else
        (Except.error Err.Unauthorized, l)

/-- `join` (lib.rs lines 142-158): read state, fail with `AlreadyMember` if the
user has a record, `require_auth`, insert a zero subscriber, write state. -/
def join (auth : Address → Bool) (user : Address) (l : Ledger) : Except Err Unit × Ledger :=
  match get_state l with
  | Except.error e => (Except.error e, l)
  | Except.ok state =>
    if containsKey user state.subcriber_map then
      (Except.error Err.AlreadyMember, l)
    else if auth user then
      let subscriber : Subscriber :=
        { winner_at_iter := 0, prev_due_amount := 0, prize_money := 0 }
      let state := { state with subcriber_map := mapSet user subscriber state.subcriber_map }
      (Except.ok (), { l with state := some state })
    else
      (Except.error Err.Unauthorized, l)

/-- `set_pool_winner` (lib.rs lines 160-187): look the subscriber up (a failing
`unwrap` is `SubscriberNotFound`), fail with `AlreadyWinner` if their
`winner_at_iter` is nonzero, record iteration and prize on the subscriber, look
the iteration up (a failing `unwrap` is `IterationNotFound`), record winner and
prize on the iteration, compute the dividend by the unguarded `u32`
subtraction, and only then write the state.  No `require_auth` call occurs. -/
def set_pool_winner (iteration prize_amount : Nat) (subscriber : Address)
    (l : Ledger) : Except Err Unit × Ledger :=
  match get_state l with
  | Except.error e => (Except.error e, l)
  | Except.ok state =>
    match mapGet subscriber state.subcriber_map with
    | none => (Except.error Err.SubscriberNotFound, l)
    | some subr =>
      if subr.winner_at_iter ≠ 0 then
        (Except.error Err.AlreadyWinner, l)
      else
        let subr := { subr with winner_at_iter := iteration, prize_money := prize_amount }
        let state := { state with subcriber_map := mapSet subscriber subr state.subcriber_map }
        match mapGet iteration state.pool_iteration_map with
        | none => (Except.error Err.IterationNotFound, l)
        | some pool_iteration =>
          let pool_iteration :=
            { pool_iteration with
              winner := subscriber,
              prize_money := prize_amount,
              dividend_amount := u32sub pool_iteration.amount_collected prize_amount }
          let state :=
            { state with pool_iteration_map := mapSet iteration pool_iteration state.pool_iteration_map }
          (Except.ok (), { l with state := some state })

/-- `get_pool_winner` (lib.rs lines 189-193): a read; the failing `unwrap` of a
missing iteration record is `IterationNotFound`. -/
def get_pool_winner (iteration : Nat) (l : Ledger) : Except Err Address × Ledger :=
  match get_state l with
  | Except.error e => (Except.error e, l)
  | Except.ok state =>
    match mapGet iteration state.pool_iteration_map with
    | none => (Except.error Err.IterationNotFound, l)
    | some pit => (Except.ok pit.winner, l)

/-- `get_subscriber_details` (lib.rs lines 195-199): a read; the failing
`unwrap` of a missing subscriber record is `SubscriberNotFound`. -/
def get_subscriber_details (subscriber_address : Address) (l : Ledger) :
    Except Err Subscriber × Ledger :=
  match get_state l with
  | Except.error e => (Except.error e, l)
  | Except.ok state =>
    match mapGet subscriber_address state.subcriber_map with
    | none => (Except.error Err.SubscriberNotFound, l)
    | some s => (Except.ok s, l)

/-- `start_new_iteration` (lib.rs lines 202-216): build a fresh
`PoolIterationParams` with zero amounts and the caller-supplied placeholder
winner, store it under `iteration` (overwriting), and write the state.
No `require_auth` call occurs. -/
def start_new_iteration (iteration : Nat) (dummyAddress : Address) (l : Ledger) :
    Except Err Unit × Ledger :=
  match get_state l with
  | Except.error e => (Except.error e, l)
  | Except.ok state =>
    let pool_iteration : PoolIterationParams :=
      { current_iteration := iteration, amount_collected := 0,
        winner := dummyAddress, prize_money := 0, dividend_amount := 0 }
    let state :=
      { state with pool_iteration_map := mapSet iteration pool_iteration state.pool_iteration_map }
    (Except.ok (), { l with state := some state })

/-- One public call of the contract, with the host data it carries. -/
inductive Op
  | initPool (auth : Address → Bool) (user : Address) (no_of_subs amount : Nat)
      (frequency : Frequency)
  | join (auth : Address → Bool) (user : Address)
  | setPoolWinner (iteration prize : Nat) (subscriber : Address)
  | getPoolWinner (iteration : Nat)
  | getSubscriberDetails (a : Address)
  | startNewIteration (iteration : Nat) (dummy : Address)
  | getState

/-- The storage after one call. -/
def applyOp (l : Ledger) : Op → Ledger
  | Op.initPool auth u n a f => (initPool auth u n a f l).2
  | Op.join auth u => (join auth u l).2
  | Op.setPoolWinner i p s => (set_pool_winner i p s l).2
  | Op.getPoolWinner i => (get_pool_winner i l).2
  | Op.getSubscriberDetails a => (get_subscriber_details a l).2
  | Op.startNewIteration i d => (start_new_iteration i d l).2
  | Op.getState => l

/-- The storage after a sequence of calls. -/
def run (l : Ledger) : List Op → Ledger
  | [] => l
  | op :: ops => run (applyOp l op) ops

/-- Whether an `Except` result is a success. -/
def isOkE {α : Type} : Except Err α → Bool
  | Except.ok _ => true
  | Except.error _ => false

/-- Whether a call succeeds on the given storage. -/
def opOk (l : Ledger) : Op → Bool
  | Op.initPool auth u n a f => isOkE (initPool auth u n a f l).1
  | Op.join auth u => isOkE (join auth u l).1
  | Op.setPoolWinner i p s => isOkE (set_pool_winner i p s l).1
  | Op.getPoolWinner i => isOkE (get_pool_winner i l).1
  | Op.getSubscriberDetails a => isOkE (get_subscriber_details a l).1
  | Op.startNewIteration i d => isOkE (start_new_iteration i d l).1
  | Op.getState => true

/-- Whether a call is `set_pool_winner` for iteration `i`. -/
def setsWinnerAt (i : Nat) : Op → Bool
  | Op.setPoolWinner j _ _ => j == i
  | _ => false

/-- Whether a call is `start_new_iteration` for iteration `i`. -/
def startsIterAt (i : Nat) : Op → Bool
  | Op.startNewIteration j _ => j == i
  | _ => false

/-- Whether a successful `set_pool_winner` for iteration `i` occurs somewhere
in a sequence of calls starting from `l`. -/
def winnerSetDuring (i : Nat) : Ledger → List Op → Bool
  | _, [] => false
  | l, op :: ops =>
    (setsWinnerAt i op && opOk l op) || winnerSetDuring i (applyOp l op) ops

/-- The `PoolIterationParams` stored for iteration `i`, read through `STATE`. -/
def iterRecord (i : Nat) (l : Ledger) : Option PoolIterationParams :=
  l.state.bind (fun st => mapGet i st.pool_iteration_map)

/-- The `Subscriber` stored for address `a`, read through `STATE`. -/
def subRecord (a : Address) (l : Ledger) : Option Subscriber :=
  l.state.bind (fun st => mapGet a st.subcriber_map)

/-- Whether a result is the `Unauthorized` failure. -/
def isUnauth {α : Type} : Except Err α → Bool
  | Except.error Err.Unauthorized => true
  | _ => false

/-- A fresh deployment: both storage slots empty. -/
def freshL : Ledger := { state := none, initd := none }

/-- An authorization oracle granting every identity. -/
def authAll : Address → Bool := fun _ => true

/-- An authorization oracle granting no identity. -/
def authNone : Address → Bool := fun _ => false

/-- A sample pool state: owner `0`, subscriber `1`, iteration records `0`, `1`
(nothing collected) and `2` (500 collected). -/
def st0 : State :=
  { pool_params := { no_of_subs := 5, frequency := Frequency.WEEK,
                     sub_amount := 100, pool_owner := 0 },
    current_iteration := 0,
    subcriber_map := [(1, { winner_at_iter := 0, prize_money := 0, prev_due_amount := 0 })],
    pool_iteration_map :=
      [(0, { current_iteration := 0, amount_collected := 0, winner := 9,
             prize_money := 0, dividend_amount := 0 }),
       (1, { current_iteration := 1, amount_collected := 0, winner := 9,
             prize_money := 0, dividend_amount := 0 }),
       (2, { current_iteration := 2, amount_collected := 500, winner := 9,
             prize_money := 0, dividend_amount := 0 })] }

/-- `st0` persisted, initialization marker not yet set. -/
def l0 : Ledger := { state := some st0, initd := none }

/-- `st0` persisted, initialization marker set. -/
def lInit : Ledger := { state := some st0, initd := some true }

/-! ### Map lemmas -/

theorem mapGet_mapSet_self {α β : Type} [DecidableEq α] (k : α) (v : β) (m : List (α × β)) :
    mapGet k (mapSet k v m) = some v := by
  induction m with
  | nil => simp [mapSet, mapGet]
  | cons hd tl ih =>
    obtain ⟨a, b⟩ := hd
    by_cases h : k = a <;> simp [mapSet, mapGet, h, ih]

theorem mapGet_mapSet_ne {α β : Type} [DecidableEq α] {k k' : α} (h : k ≠ k') (v : β)
    (m : List (α × β)) : mapGet k (mapSet k' v m) = mapGet k m := by
  induction m with
  | nil => simp [mapSet, mapGet, h]
  | cons hd tl ih =>
    obtain ⟨a, b⟩ := hd
    by_cases h1 : k' = a
    · subst h1
      simp [mapSet, mapGet, h]
    · by_cases h2 : k = a <;> simp [mapSet, mapGet, h1, h2, ih]

theorem containsKey_iff {α β : Type} [DecidableEq α] (k : α) (m : List (α × β)) :
    containsKey k m = true ↔ ∃ v, mapGet k m = some v := by
  simp [containsKey, Option.isSome_iff_exists]

/-! ### Error-frame lemmas: a failed call returns the storage unchanged -/

theorem initPool_err {auth : Address → Bool} {u : Address} {n a : Nat} {f : Frequency}
    {l : Ledger} {e : Err} (h : (initPool auth u n a f l).1 = Except.error e) :
    (initPool auth u n a f l).2 = l := by
  revert h
  unfold initPool
  split
  · exact fun _ => rfl
  · split
    · exact fun _ => rfl
    · split
      · exact fun h => Except.noConfusion h
      · exact fun _ => rfl

theorem join_err {auth : Address → Bool} {u : Address} {l : Ledger} {e : Err}
    (h : (join auth u l).1 = Except.error e) : (join auth u l).2 = l := by
  revert h
  unfold join
  split
  · exact fun _ => rfl
  · split
    · exact fun _ => rfl
    · split
      · exact fun h => Except.noConfusion h
      · exact fun _ => rfl

theorem set_pool_winner_err {i p : Nat} {s : Address} {l : Ledger} {e : Err}
    (h : (set_pool_winner i p s l).1 = Except.error e) : (set_pool_winner i p s l).2 = l := by
  revert h
  unfold set_pool_winner
  split
  · exact fun _ => rfl
  · split
    · exact fun _ => rfl
    · split
      · exact fun _ => rfl
      · dsimp only
        split
        · exact fun _ => rfl
        · exact fun h => Except.noConfusion h

theorem start_new_iteration_err {i : Nat} {d : Address} {l : Ledger} {e : Err}
    (h : (start_new_iteration i d l).1 = Except.error e) :
    (start_new_iteration i d l).2 = l := by
  revert h
  unfold start_new_iteration
  split
  · exact fun _ => rfl
  · exact fun h => Except.noConfusion h

/-- The two getters never touch the storage, whatever their outcome. -/
theorem get_pool_winner_snd (i : Nat) (l : Ledger) : (get_pool_winner i l).2 = l := by
  unfold get_pool_winner
  split
  · rfl
  · split <;> rfl

theorem get_subscriber_details_snd (a : Address) (l : Ledger) :
    (get_subscriber_details a l).2 = l := by
  unfold get_subscriber_details
  split
  · rfl
  · split <;> rfl

/-! ### Success-shape lemmas -/

theorem get_state_eq {l : Ledger} {st : State} (h : l.state = some st) :
    get_state l = Except.ok st := by
  unfold get_state
  rw [h]

theorem get_state_none {l : Ledger} (h : l.state = none) :
    get_state l = Except.error Err.NotInitialized := by
  unfold get_state
  rw [h]

/-- A successful `initialize` requires the `INITD` flag clear and a `STATE`
slot already present; it stamps the flag and stores the rebuilt state. -/
theorem initPool_ok_shape {auth : Address → Bool} {u : Address} {n a : Nat} {f : Frequency}
    {l l' : Ledger} (h : initPool auth u n a f l = (Except.ok (), l')) :
    l.initd.getD false = false ∧ auth u = true ∧ ∃ st, l.state = some st ∧
      l' = { state := some { st with
               pool_params := { no_of_subs := n, frequency := f, sub_amount := a,
                                pool_owner := u },
               subcriber_map := mapSet u
                 { winner_at_iter := 0, prize_money := 0, prev_due_amount := 0 }
                 st.subcriber_map },
             initd := some true } := by
  revert h
  unfold initPool
  split
  · exact fun h => Except.noConfusion (congrArg Prod.fst h)
  · rename_i hb
    split
    · exact fun h => Except.noConfusion (congrArg Prod.fst h)
    · rename_i st hst
      split
      · rename_i hauth
        intro h
        refine ⟨by simpa using hb, hauth, st, ?_, (congrArg Prod.snd h).symm⟩
        revert hst
        unfold get_state
        cases l.state
        · exact fun hst => Except.noConfusion hst
        · exact fun hst => by rw [Except.ok.injEq] at hst; rw [hst]
      · exact fun h => Except.noConfusion (congrArg Prod.fst h)

/-- A successful `join` requires authorization and a non-member user; it adds
the zero-initialized subscriber. -/
theorem join_ok_shape {auth : Address → Bool} {u : Address} {l l' : Ledger}
    (h : join auth u l = (Except.ok (), l')) :
    auth u = true ∧ ∃ st, l.state = some st ∧ containsKey u st.subcriber_map = false ∧
      l' = { l with state := some { st with
               subcriber_map := mapSet u
                 { winner_at_iter := 0, prize_money := 0, prev_due_amount := 0 }
                 st.subcriber_map } } := by
  revert h
  unfold join
  split
  · exact fun h => Except.noConfusion (congrArg Prod.fst h)
  · rename_i st hst
    split
    · exact fun h => Except.noConfusion (congrArg Prod.fst h)
    · rename_i hc
      split
      · rename_i hauth
        intro h
        refine ⟨hauth, st, ?_, by simpa using hc, (congrArg Prod.snd h).symm⟩
        revert hst
        unfold get_state
        cases l.state
        · exact fun hst => Except.noConfusion hst
        · exact fun hst => by rw [Except.ok.injEq] at hst; rw [hst]
      · exact fun h => Except.noConfusion (congrArg Prod.fst h)

/-- A successful `set_pool_winner` requires a known, not-yet-winning subscriber
and a known iteration; it updates both records, the dividend coming from the
wrapping subtraction. -/
theorem set_pool_winner_ok_shape {i p : Nat} {s : Address} {l l' : Ledger}
    (h : set_pool_winner i p s l = (Except.ok (), l')) :
    ∃ st subr r0, l.state = some st ∧
      mapGet s st.subcriber_map = some subr ∧ subr.winner_at_iter = 0 ∧
      mapGet i st.pool_iteration_map = some r0 ∧
      l' = { l with state := some { st with
        subcriber_map := mapSet s
          { subr with winner_at_iter := i, prize_money := p } st.subcriber_map,
        pool_iteration_map := mapSet i
          { r0 with winner := s, prize_money := p,
                    dividend_amount := u32sub r0.amount_collected p }
          st.pool_iteration_map } } := by
  revert h
  unfold set_pool_winner
  split
  · exact fun h => Except.noConfusion (congrArg Prod.fst h)
  · rename_i st hst
    split
    · exact fun h => Except.noConfusion (congrArg Prod.fst h)
    · rename_i subr hsub
      split
      · exact fun h => Except.noConfusion (congrArg Prod.fst h)
      · rename_i hw
        dsimp only
        split
        · exact fun h => Except.noConfusion (congrArg Prod.fst h)
        · rename_i r0 hit
          intro h
          refine ⟨st, subr, r0, ?_, hsub, not_not.mp hw, hit, (congrArg Prod.snd h).symm⟩
          revert hst
          unfold get_state
          cases l.state
          · exact fun hst => Except.noConfusion hst
          · exact fun hst => by rw [Except.ok.injEq] at hst; rw [hst]

/-- `start_new_iteration` on a present state always succeeds and stores the
fresh all-zero record with the placeholder winner, touching nothing else. -/
theorem start_new_iteration_shape {i : Nat} {d : Address} {l : Ledger} {st : State}
    (h : l.state = some st) :
    start_new_iteration i d l = (Except.ok (),
      { l with state := some { st with
        pool_iteration_map := mapSet i
          { current_iteration := i, amount_collected := 0, winner := d,
            prize_money := 0, dividend_amount := 0 }
          st.pool_iteration_map } }) := by
  unfold start_new_iteration
  rw [get_state_eq h]

/-! ### Inversion and arithmetic helpers -/

theorem get_state_ok_inv {l : Ledger} {st : State} (h : get_state l = Except.ok st) :
    l.state = some st := by
  revert h
  unfold get_state
  cases l.state
  · exact fun h => Except.noConfusion h
  · exact fun h => by rw [Except.ok.injEq] at h; rw [h]

theorem subRecord_some {s : Address} {l : Ledger} {r : Subscriber}
    (h : subRecord s l = some r) :
    ∃ st, l.state = some st ∧ mapGet s st.subcriber_map = some r := by
  revert h
  unfold subRecord
  cases hx : l.state
  · exact fun h => Option.noConfusion h
  · rename_i st
    exact fun h => ⟨st, rfl, by rw [Option.some_bind] at h; exact h⟩

theorem iterRecord_some {i : Nat} {l : Ledger} {r : PoolIterationParams}
    (h : iterRecord i l = some r) :
    ∃ st, l.state = some st ∧ mapGet i st.pool_iteration_map = some r := by
  revert h
  unfold iterRecord
  cases hx : l.state
  · exact fun h => Option.noConfusion h
  · rename_i st
    exact fun h => ⟨st, rfl, by rw [Option.some_bind] at h; exact h⟩

/-- The unguarded `u32` subtraction agrees with true subtraction exactly when
it does not underflow (and the minuend is a real `u32`). -/
theorem u32sub_of_le {c p : Nat} (h1 : p ≤ c) (h2 : c < U32) : u32sub c p = c - p := by
  have h2' : c < 4294967296 := h2
  show (c + 4294967296 - p % 4294967296) % 4294967296 = c - p
  omega

/-! ### The initialization marker -/

/-- With the marker set, `initialize` fails immediately and changes nothing. -/
theorem initPool_of_initd {auth : Address → Bool} {u : Address} {n a : Nat} {f : Frequency}
    {l : Ledger} (h : l.initd = some true) :
    initPool auth u n a f l = (Except.error Err.AlreadyInitialized, l) := by
  unfold initPool
  rw [h]
  rfl

theorem join_initd (auth : Address → Bool) (u : Address) (l : Ledger) :
    ((join auth u l).2).initd = l.initd := by
  unfold join
  split
  · rfl
  · split
    · rfl
    · split <;> rfl

theorem set_pool_winner_initd (i p : Nat) (s : Address) (l : Ledger) :
    ((set_pool_winner i p s l).2).initd = l.initd := by
  unfold set_pool_winner
  split
  · rfl
  · split
    · rfl
    · split
      · rfl
      · dsimp only
        split <;> rfl

theorem start_new_iteration_initd (i : Nat) (d : Address) (l : Ledger) :
    ((start_new_iteration i d l).2).initd = l.initd := by
  unfold start_new_iteration
  split <;> rfl

/-- No call ever clears a set initialization marker. -/
theorem applyOp_initd_true {l : Ledger} (op : Op) (h : l.initd = some true) :
    (applyOp l op).initd = some true := by
  cases op with
  | initPool auth u n a f =>
    show ((initPool auth u n a f l).2).initd = some true
    rw [initPool_of_initd h]
    exact h
  | join auth u =>
    show ((join auth u l).2).initd = some true
    rw [join_initd]
    exact h
  | setPoolWinner i p s =>
    show ((set_pool_winner i p s l).2).initd = some true
    rw [set_pool_winner_initd]
    exact h
  | getPoolWinner i =>
    show ((get_pool_winner i l).2).initd = some true
    rw [get_pool_winner_snd]
    exact h
  | getSubscriberDetails a =>
    show ((get_subscriber_details a l).2).initd = some true
    rw [get_subscriber_details_snd]
    exact h
  | startNewIteration i d =>
    show ((start_new_iteration i d l).2).initd = some true
    rw [start_new_iteration_initd]
    exact h
  | getState => exact h

theorem run_initd_true : ∀ (ops : List Op) (l : Ledger), l.initd = some true →
    (run l ops).initd = some true
  | [], _, h => h
  | op :: ops, l, h => run_initd_true ops (applyOp l op) (applyOp_initd_true op h)

/-! ### Failed calls do nothing, in `Op` form -/

theorem isOkE_false {α : Type} {x : Except Err α} (h : isOkE x = false) :
    ∃ e, x = Except.error e := by
  cases x
  · exact ⟨_, rfl⟩
  · exact absurd h (by simp [isOkE])

theorem applyOp_of_not_ok {l : Ledger} {op : Op} (h : opOk l op = false) :
    applyOp l op = l := by
  cases op with
  | initPool auth u n a f =>
    obtain ⟨e, he⟩ := isOkE_false (show isOkE (initPool auth u n a f l).1 = false from h)
    exact initPool_err he
  | join auth u =>
    obtain ⟨e, he⟩ := isOkE_false (show isOkE (join auth u l).1 = false from h)
    exact join_err he
  | setPoolWinner i p s =>
    obtain ⟨e, he⟩ := isOkE_false (show isOkE (set_pool_winner i p s l).1 = false from h)
    exact set_pool_winner_err he
  | getPoolWinner i => exact get_pool_winner_snd i l
  | getSubscriberDetails a => exact get_subscriber_details_snd a l
  | startNewIteration i d =>
    obtain ⟨e, he⟩ := isOkE_false (show isOkE (start_new_iteration i d l).1 = false from h)
    exact start_new_iteration_err he
  | getState => rfl

/-! ### Frame lemmas for iteration records -/

/-- `initialize` never touches `pool_iteration_map`. -/
theorem initPool_iterRecord (auth : Address → Bool) (u : Address) (n a : Nat) (f : Frequency)
    (i : Nat) (l : Ledger) :
    iterRecord i ((initPool auth u n a f l).2) = iterRecord i l := by
  unfold initPool
  split
  · rfl
  · split
    · rfl
    · split
      · rename_i st hst ha
        unfold iterRecord
        rw [get_state_ok_inv hst]
        rfl
      · rfl

/-- `join` never touches `pool_iteration_map`. -/
theorem join_iterRecord (auth : Address → Bool) (u : Address) (i : Nat) (l : Ledger) :
    iterRecord i ((join auth u l).2) = iterRecord i l := by
  unfold join
  split
  · rfl
  · rename_i st hst
    split
    · rfl
    · split
      · unfold iterRecord
        rw [get_state_ok_inv hst]
        rfl
      · rfl

/-- `set_pool_winner` for iteration `j` leaves every other iteration record
unchanged. -/
theorem set_pool_winner_iterRecord {j : Nat} (p : Nat) (s : Address) (l : Ledger) {k : Nat}
    (hk : k ≠ j) : iterRecord k ((set_pool_winner j p s l).2) = iterRecord k l := by
  unfold set_pool_winner
  split
  · rfl
  · rename_i st hst
    split
    · rfl
    · split
      · rfl
      · dsimp only
        split
        · rfl
        · unfold iterRecord
          rw [get_state_ok_inv hst]
          rw [Option.some_bind, Option.some_bind]
          exact mapGet_mapSet_ne hk _ _

/-- `start_new_iteration` for iteration `j` leaves every other iteration
record unchanged. -/
theorem start_new_iteration_iterRecord {j : Nat} (d : Address) (l : Ledger) {k : Nat}
    (hk : k ≠ j) : iterRecord k ((start_new_iteration j d l).2) = iterRecord k l := by
  unfold start_new_iteration
  split
  · rfl
  · rename_i st hst
    unfold iterRecord
    rw [get_state_ok_inv hst]
    rw [Option.some_bind, Option.some_bind]
    exact mapGet_mapSet_ne hk _ _

/-- A call that neither sets a winner for iteration `i` nor restarts iteration
`i` leaves iteration `i`'s record unchanged. -/
theorem applyOp_iterRecord {i : Nat} {op : Op} (l : Ledger)
    (h1 : setsWinnerAt i op = false) (h2 : startsIterAt i op = false) :
    iterRecord i (applyOp l op) = iterRecord i l := by
  cases op with
  | initPool auth u n a f => exact initPool_iterRecord auth u n a f i l
  | join auth u => exact join_iterRecord auth u i l
  | setPoolWinner j p s =>
    have hj : j ≠ i := by simpa [setsWinnerAt] using h1
    exact set_pool_winner_iterRecord p s l (Ne.symm hj)
  | getPoolWinner j =>
    show iterRecord i ((get_pool_winner j l).2) = iterRecord i l
    rw [get_pool_winner_snd]
  | getSubscriberDetails a =>
    show iterRecord i ((get_subscriber_details a l).2) = iterRecord i l
    rw [get_subscriber_details_snd]
  | startNewIteration j d =>
    have hj : j ≠ i := by simpa [startsIterAt] using h2
    exact start_new_iteration_iterRecord d l (Ne.symm hj)
  | getState => rfl

/-- Through a whole sequence of calls none of which restarts iteration `i`,
and during which no `set_pool_winner` for `i` succeeds, iteration `i`'s
record is untouched. -/
theorem iterRecord_run {i : Nat} : ∀ (ops : List Op) (l : Ledger),
    (∀ op ∈ ops, startsIterAt i op = false) → winnerSetDuring i l ops = false →
    iterRecord i (run l ops) = iterRecord i l
  | [], _, _, _ => rfl
  | op :: ops, l, hs, hw => by
    rw [winnerSetDuring] at hw
    rw [Bool.or_eq_false_iff] at hw
    have hrest := iterRecord_run ops (applyOp l op)
      (fun o ho => hs o (List.mem_cons_of_mem _ ho)) hw.2
    show iterRecord i (run (applyOp l op) ops) = iterRecord i l
    rw [hrest]
    cases hso : setsWinnerAt i op
    · exact applyOp_iterRecord l hso (hs op (List.mem_cons_self _ _))
    · have hnok : opOk l op = false := by simpa [hso] using hw.1
      rw [applyOp_of_not_ok hnok]

/-! ### Preservation of an existing subscriber record -/

/-- `join` never modifies an existing subscriber record. -/
theorem join_subRecord {auth : Address → Bool} {u s : Address} {l : Ledger} {r : Subscriber}
    (h : subRecord s l = some r) : subRecord s ((join auth u l).2) = some r := by
  unfold join
  split
  · exact h
  · rename_i st hst
    split
    · exact h
    · rename_i hc
      split
      · obtain ⟨st', hls, hms⟩ := subRecord_some h
        rw [get_state_ok_inv hst] at hls
        rw [Option.some.injEq] at hls
        subst hls
        show mapGet s (mapSet u
          { winner_at_iter := 0, prize_money := 0, prev_due_amount := 0 }
          st.subcriber_map) = some r
        by_cases hus : s = u
        · subst hus
          exact absurd ((containsKey_iff s st.subcriber_map).mpr ⟨r, hms⟩) (by simpa using hc)
        · rw [mapGet_mapSet_ne hus]
          exact hms
      · exact h

/-- `set_pool_winner` never modifies the record of a subscriber who has
already won. -/
theorem set_pool_winner_subRecord {i p : Nat} {t s : Address} {l : Ledger} {r : Subscriber}
    (h : subRecord s l = some r) (hw : r.winner_at_iter ≠ 0) :
    subRecord s ((set_pool_winner i p t l).2) = some r := by
  unfold set_pool_winner
  split
  · exact h
  · rename_i st hst
    split
    · exact h
    · rename_i subr hsub
      split
      · exact h
      · rename_i hnw
        dsimp only
        split
        · exact h
        · rename_i r0 hit
          obtain ⟨st', hls, hms⟩ := subRecord_some h
          rw [get_state_ok_inv hst] at hls
          rw [Option.some.injEq] at hls
          subst hls
          show mapGet s (mapSet t
            { subr with winner_at_iter := i, prize_money := p }
            st.subcriber_map) = some r
          by_cases hts : s = t
          · subst hts
            rw [hms] at hsub
            rw [Option.some.injEq] at hsub
            rw [← hsub] at hnw
            exact absurd hw hnw
          · rw [mapGet_mapSet_ne hts]
            exact hms

/-- `start_new_iteration` never touches the subscriber map. -/
theorem start_new_iteration_subRecord (i : Nat) (d s : Address) (l : Ledger) :
    subRecord s ((start_new_iteration i d l).2) = subRecord s l := by
  unfold start_new_iteration
  split
  · rfl
  · rename_i st hst
    unfold subRecord
    rw [get_state_ok_inv hst]
    rfl

/-- On an initialized pool, the record of a subscriber who has already won is
preserved by every call. -/
theorem applyOp_won {s : Address} {r : Subscriber} {l : Ledger} (op : Op)
    (hinit : l.initd = some true) (h : subRecord s l = some r)
    (hw : r.winner_at_iter ≠ 0) : subRecord s (applyOp l op) = some r := by
  cases op with
  | initPool auth u n a f =>
    show subRecord s ((initPool auth u n a f l).2) = some r
    rw [initPool_of_initd hinit]
    exact h
  | join auth u => exact join_subRecord h
  | setPoolWinner i p t => exact set_pool_winner_subRecord h hw
  | getPoolWinner i =>
    show subRecord s ((get_pool_winner i l).2) = some r
    rw [get_pool_winner_snd]
    exact h
  | getSubscriberDetails a =>
    show subRecord s ((get_subscriber_details a l).2) = some r
    rw [get_subscriber_details_snd]
    exact h
  | startNewIteration i d =>
    show subRecord s ((start_new_iteration i d l).2) = some r
    rw [start_new_iteration_subRecord]
    exact h
  | getState => exact h

/-- Run form of `applyOp_won`. -/
theorem run_won {s : Address} {r : Subscriber} : ∀ (ops : List Op) (l : Ledger),
    l.initd = some true → subRecord s l = some r → r.winner_at_iter ≠ 0 →
    subRecord s (run l ops) = some r
  | [], _, _, h, _ => h
  | op :: ops, l, hinit, h, hw =>
    run_won ops (applyOp l op) (applyOp_initd_true op hinit) (applyOp_won op hinit h hw) hw

/-- `set_pool_winner` naming a subscriber whose stored `winner_at_iter` is
nonzero always fails with `AlreadyWinner` and changes nothing. -/
theorem set_pool_winner_already {i p : Nat} {s : Address} {l : Ledger} {r : Subscriber}
    (h : subRecord s l = some r) (hw : r.winner_at_iter ≠ 0) :
    set_pool_winner i p s l = (Except.error Err.AlreadyWinner, l) := by
  obtain ⟨st, hls, hms⟩ := subRecord_some h
  unfold set_pool_winner
  split
  · rename_i e heq
    rw [get_state_eq hls] at heq
    exact Except.noConfusion heq
  · rename_i st' hst'
    rw [get_state_eq hls, Except.ok.injEq] at hst'
    subst hst'
    split
    · rename_i hnone
      rw [hms] at hnone
      exact Option.noConfusion hnone
    · rename_i subr hsubr
      rw [hms, Option.some.injEq] at hsubr
      subst hsubr
      rw [if_pos hw]

/-! ### Evaluation lemmas for the getters, and remaining inversions -/

theorem get_state_err {l : Ledger} {e : Err} (h : get_state l = Except.error e) :
    e = Err.NotInitialized := by
  revert h
  unfold get_state
  cases l.state
  · exact fun h => (Except.error.inj h).symm
  · exact fun h => Except.noConfusion h

theorem get_pool_winner_eq {i : Nat} {l : Ledger} {r : PoolIterationParams}
    (h : iterRecord i l = some r) : (get_pool_winner i l).1 = Except.ok r.winner := by
  obtain ⟨st, hls, hit⟩ := iterRecord_some h
  unfold get_pool_winner
  split
  · rename_i e heq
    rw [get_state_eq hls] at heq
    exact Except.noConfusion heq
  · rename_i st' hst'
    rw [get_state_eq hls, Except.ok.injEq] at hst'
    subst hst'
    split
    · rename_i hnone
      rw [hit] at hnone
      exact Option.noConfusion hnone
    · rename_i r0 hr0
      rw [hit, Option.some.injEq] at hr0
      subst hr0
      rfl

theorem get_pool_winner_none {i : Nat} {l : Ledger} {st : State}
    (hls : l.state = some st) (h : mapGet i st.pool_iteration_map = none) :
    (get_pool_winner i l).1 = Except.error Err.IterationNotFound := by
  unfold get_pool_winner
  split
  · rename_i e heq
    rw [get_state_eq hls] at heq
    exact Except.noConfusion heq
  · rename_i st' hst'
    rw [get_state_eq hls, Except.ok.injEq] at hst'
    subst hst'
    split
    · rfl
    · rename_i r0 hr0
      rw [h] at hr0
      exact Option.noConfusion hr0

theorem get_subscriber_details_eq {s : Address} {l : Ledger} {r : Subscriber}
    (h : subRecord s l = some r) : (get_subscriber_details s l).1 = Except.ok r := by
  obtain ⟨st, hls, hms⟩ := subRecord_some h
  unfold get_subscriber_details
  split
  · rename_i e heq
    rw [get_state_eq hls] at heq
    exact Except.noConfusion heq
  · rename_i st' hst'
    rw [get_state_eq hls, Except.ok.injEq] at hst'
    subst hst'
    split
    · rename_i hnone
      rw [hms] at hnone
      exact Option.noConfusion hnone
    · rename_i r0 hr0
      rw [hms, Option.some.injEq] at hr0
      subst hr0
      rfl

theorem start_new_iteration_ok_inv {i : Nat} {d : Address} {l l' : Ledger}
    (h : start_new_iteration i d l = (Except.ok (), l')) :
    ∃ st, l.state = some st ∧ l' = { l with state := some { st with
      pool_iteration_map := mapSet i
        { current_iteration := i, amount_collected := 0, winner := d,
          prize_money := 0, dividend_amount := 0 }
        st.pool_iteration_map } } := by
  revert h
  unfold start_new_iteration
  split
  · exact fun h => Except.noConfusion (congrArg Prod.fst h)
  · rename_i st hst
    exact fun h => ⟨st, get_state_ok_inv hst, (congrArg Prod.snd h).symm⟩

/-- `join` of an existing member fails with `AlreadyMember`, untouched state. -/
theorem join_member {auth : Address → Bool} {u : Address} {l : Ledger} {st : State}
    (hls : l.state = some st) (hc : containsKey u st.subcriber_map = true) :
    join auth u l = (Except.error Err.AlreadyMember, l) := by
  unfold join
  split
  · rename_i e heq
    rw [get_state_eq hls] at heq
    exact Except.noConfusion heq
  · rename_i st' hst'
    rw [get_state_eq hls, Except.ok.injEq] at hst'
    subst hst'
    rw [if_pos hc]

/-- `join` of a fresh, authorized user inserts the zero record. -/
theorem join_new {auth : Address → Bool} {u : Address} {l : Ledger} {st : State}
    (hls : l.state = some st) (hc : containsKey u st.subcriber_map = false)
    (hauth : auth u = true) :
    join auth u l = (Except.ok (),
      { l with state := some { st with
        subcriber_map := mapSet u
          { winner_at_iter := 0, prize_money := 0, prev_due_amount := 0 }
          st.subcriber_map } }) := by
  unfold join
  split
  · rename_i e heq
    rw [get_state_eq hls] at heq
    exact Except.noConfusion heq
  · rename_i st' hst'
    rw [get_state_eq hls, Except.ok.injEq] at hst'
    subst hst'
    rw [if_neg (by simp [hc]), if_pos hauth]

/-! ### The claims -/

/-- C1: the claim says that on a pool with no initialization marker,
`initialize` with a valid authorization proof succeeds, persists the state and
sets the marker.  The code cannot do this on a fresh deployment: line 117 of
lib.rs reads the state with `get_state().unwrap()` before anything was ever
stored, so the call aborts with the `NotInitialized` failure (the `unwrap` of
an empty `STATE` slot) before `require_auth`, before building `PoolParams`,
and before any write — even though the oracle here grants every identity. -/
theorem c1_fresh_init_fails :
    initPool authAll 1 5 100 Frequency.WEEK freshL =
      (Except.error Err.NotInitialized, freshL) := rfl

/-- C2: after any successful `initialize`, every later `initialize` call — at
any point of any further operation sequence, with any arguments and any
authorization — fails with `AlreadyInitialized` and returns the storage
(state and marker) unchanged. -/
theorem c2_init_at_most_once (auth : Address → Bool) (u : Address) (n a : Nat)
    (f : Frequency) (l l' : Ledger)
    (h : initPool auth u n a f l = (Except.ok (), l')) (ops : List Op)
    (auth' : Address → Bool) (u' : Address) (n' a' : Nat) (f' : Frequency) :
    initPool auth' u' n' a' f' (run l' ops) =
      (Except.error Err.AlreadyInitialized, run l' ops) := by
  have hinit : l'.initd = some true := by
    obtain ⟨-, -, st, -, hl'⟩ := initPool_ok_shape h
    rw [hl']
  exact initPool_of_initd (run_initd_true ops l' hinit)

/-- C2 witness: a concrete successful `initialize` on `l0`, a `join`, then a
second `initialize` that fails with `AlreadyInitialized` and changes nothing. -/
theorem c2_init_at_most_once_witness :
    initPool authNone 9 1 2 Frequency.DAY
        (run (initPool authAll 7 5 100 Frequency.WEEK l0).2 [Op.join authAll 8]) =
      (Except.error Err.AlreadyInitialized,
        run (initPool authAll 7 5 100 Frequency.WEEK l0).2 [Op.join authAll 8]) :=
  c2_init_at_most_once authAll 7 5 100 Frequency.WEEK l0 _ rfl
    [Op.join authAll 8] authNone 9 1 2 Frequency.DAY

/-- C3 counterexample: the claim quantifies over all iteration arguments, but
`set_pool_winner` records the iteration number itself in `winner_at_iter`, so
iteration number 0 leaves the subscriber looking like a non-winner.  On
`lInit` (which has an iteration-0 record), `set_pool_winner(0, 5, 1)` succeeds
and a second `set_pool_winner(0, 7, 1)` naming the same subscriber does not
fail with `AlreadyWinner` — it succeeds again. -/
theorem c3_cex_zero_iteration_wins_twice :
    (set_pool_winner 0 5 1 lInit).1 = Except.ok () ∧
    (set_pool_winner 0 7 1 (set_pool_winner 0 5 1 lInit).2).1 = Except.ok () :=
  ⟨rfl, rfl⟩

/-- C3 (amended): on a pool whose initialization marker is set, once a
`set_pool_winner` call naming subscriber `s` with a nonzero iteration argument
has succeeded, every later `set_pool_winner` naming `s` — after any further
sequence of operations, for all iteration and prize arguments — fails with
`AlreadyWinner` and changes nothing, so `winner_at_iter` is never reset. -/
theorem c3_winner_at_most_once (i p : Nat) (s : Address) (l l' : Ledger)
    (hinit : l.initd = some true) (hi : i ≠ 0)
    (h : set_pool_winner i p s l = (Except.ok (), l')) (ops : List Op) (i' p' : Nat) :
    set_pool_winner i' p' s (run l' ops) =
      (Except.error Err.AlreadyWinner, run l' ops) := by
  obtain ⟨st, subr, r0, hls, hms, hw0, hit, hl'⟩ := set_pool_winner_ok_shape h
  have hsub' : subRecord s l' =
      some { subr with winner_at_iter := i, prize_money := p } := by
    rw [hl']
    show mapGet s (mapSet s { subr with winner_at_iter := i, prize_money := p }
      st.subcriber_map) = _
    exact mapGet_mapSet_self _ _ _
  have hinit' : l'.initd = some true := by
    rw [hl']
    exact hinit
  have hrun := run_won ops l' hinit' hsub'
    (show ({ subr with winner_at_iter := i, prize_money := p }).winner_at_iter ≠ 0 from hi)
  exact set_pool_winner_already hrun
    (show ({ subr with winner_at_iter := i, prize_money := p }).winner_at_iter ≠ 0 from hi)

/-- C3 witness: subscriber 1 wins iteration 2 on `lInit`; after a further
`start_new_iteration`, naming subscriber 1 again fails with `AlreadyWinner`. -/
theorem c3_winner_at_most_once_witness :
    set_pool_winner 3 7 1 (run (set_pool_winner 2 80 1 lInit).2 [Op.startNewIteration 4 9]) =
      (Except.error Err.AlreadyWinner,
        run (set_pool_winner 2 80 1 lInit).2 [Op.startNewIteration 4 9]) :=
  c3_winner_at_most_once 2 80 1 lInit _ rfl (by decide) rfl
    [Op.startNewIteration 4 9] 3 7

/-- C4: the claim requires `set_pool_winner` with `prize_amount >
amount_collected` to fail with `ArithmeticUnderflow` and leave the state
unchanged.  The naive `u32` subtraction on line 182 of lib.rs has no such
guard: on `lInit`, whose iteration-1 record has `amount_collected = 0`,
`set_pool_winner(1, 5, 1)` succeeds, silently stores the wrapped dividend
`2^32 - 5 = 4294967291`, and persists the modified state. -/
theorem c4_underflow_wraps :
    (set_pool_winner 1 5 1 lInit).1 = Except.ok () ∧
    iterRecord 1 (set_pool_winner 1 5 1 lInit).2 =
      some { current_iteration := 1, amount_collected := 0, winner := 1,
             prize_money := 5, dividend_amount := 4294967291 } ∧
    (set_pool_winner 1 5 1 lInit).2 ≠ lInit :=
  ⟨rfl, rfl, by decide⟩

/-- C5 counterexample: the claimed identity `dividend_amount =
amount_collected - prize_money` fails on the record stored by a successful
underflowing call: `set_pool_winner(1, 5, 1)` on `lInit` stores
`amount_collected = 0`, `prize_money = 5`, `dividend_amount = 4294967291`,
and `4294967291 ≠ 0 - 5`. -/
theorem c5_cex_dividend_wrapped :
    (set_pool_winner 1 5 1 lInit).1 = Except.ok () ∧
    iterRecord 1 (set_pool_winner 1 5 1 lInit).2 =
      some { current_iteration := 1, amount_collected := 0, winner := 1,
             prize_money := 5, dividend_amount := 4294967291 } ∧
    (4294967291 : Int) ≠ (0 : Int) - (5 : Int) :=
  ⟨rfl, rfl, by decide⟩

/-- C5 (amended): (a) when `set_pool_winner(i, p, s)` succeeds and `p` does
not exceed the iteration's collected amount (a `u32`), the stored record for
`i` keeps its `amount_collected`, has `winner = s`, `prize_money = p`, and
`dividend_amount = amount_collected - p`; (b) after `start_new_iteration` and
before any winner is set for that iteration (and absent a restart of it), the
record's prize and dividend are zero. -/
theorem c5_dividend_eq :
    (∀ (i p : Nat) (s : Address) (l l' : Ledger) (r0 : PoolIterationParams),
      set_pool_winner i p s l = (Except.ok (), l') →
      iterRecord i l = some r0 → r0.amount_collected < U32 → p ≤ r0.amount_collected →
      iterRecord i l' =
        some { r0 with winner := s, prize_money := p,
                       dividend_amount := r0.amount_collected - p }) ∧
    (∀ (i : Nat) (d : Address) (l l' : Ledger),
      start_new_iteration i d l = (Except.ok (), l') →
      ∀ ops : List Op, (∀ op ∈ ops, startsIterAt i op = false) →
        winnerSetDuring i l' ops = false →
        iterRecord i (run l' ops) =
          some { current_iteration := i, amount_collected := 0, winner := d,
                 prize_money := 0, dividend_amount := 0 }) := by
  constructor
  · intro i p s l l' r0 h hr0 hlt hle
    obtain ⟨st, subr, rr, hls, hms, hw0, hit, hl'⟩ := set_pool_winner_ok_shape h
    obtain ⟨st2, hls2, hit2⟩ := iterRecord_some hr0
    rw [hls, Option.some.injEq] at hls2
    subst hls2
    rw [hit, Option.some.injEq] at hit2
    subst hit2
    rw [hl']
    show mapGet i (mapSet i
      { rr with winner := s, prize_money := p,
                dividend_amount := u32sub rr.amount_collected p }
      st.pool_iteration_map) = _
    rw [mapGet_mapSet_self, u32sub_of_le hle hlt]
  · intro i d l l' h ops hs hw
    obtain ⟨st, hls, hl'⟩ := start_new_iteration_ok_inv h
    rw [iterRecord_run ops l' hs hw, hl']
    show mapGet i (mapSet i
      { current_iteration := i, amount_collected := 0, winner := d,
        prize_money := 0, dividend_amount := 0 }
      st.pool_iteration_map) = _
    exact mapGet_mapSet_self _ _ _

/-- C5 witness: subscriber 1 wins iteration 2 of `lInit` with prize 80 out of
500 collected, leaving dividend 420; and a freshly started iteration 7 still
has zero prize and dividend after an unrelated `join`. -/
theorem c5_dividend_eq_witness :
    iterRecord 2 (set_pool_winner 2 80 1 lInit).2 =
      some { current_iteration := 2, amount_collected := 500, winner := 1,
             prize_money := 80, dividend_amount := 420 } ∧
    iterRecord 7 (run (start_new_iteration 7 9 lInit).2 [Op.join authAll 8]) =
      some { current_iteration := 7, amount_collected := 0, winner := 9,
             prize_money := 0, dividend_amount := 0 } := by
  constructor
  · exact c5_dividend_eq.1 2 80 1 lInit (set_pool_winner 2 80 1 lInit).2
      { current_iteration := 2, amount_collected := 500, winner := 9,
        prize_money := 0, dividend_amount := 0 }
      rfl rfl (by decide) (by decide)
  · exact c5_dividend_eq.2 7 9 lInit (start_new_iteration 7 9 lInit).2 rfl
      [Op.join authAll 8]
      (fun op ho => by rw [List.mem_singleton] at ho; subst ho; rfl) rfl

/-- C6: whenever one of the four mutating operations fails — with any error,
on any storage — the storage it returns is exactly (byte-for-byte) the
storage it was given: every precondition failure aborts before the write. -/
theorem c6_failed_calls_frame (l : Ledger) :
    (∀ (auth : Address → Bool) (u : Address) (n a : Nat) (f : Frequency) (e : Err),
      (initPool auth u n a f l).1 = Except.error e → (initPool auth u n a f l).2 = l) ∧
    (∀ (auth : Address → Bool) (u : Address) (e : Err),
      (join auth u l).1 = Except.error e → (join auth u l).2 = l) ∧
    (∀ (i p : Nat) (s : Address) (e : Err),
      (set_pool_winner i p s l).1 = Except.error e → (set_pool_winner i p s l).2 = l) ∧
    (∀ (i : Nat) (d : Address) (e : Err),
      (start_new_iteration i d l).1 = Except.error e → (start_new_iteration i d l).2 = l) :=
  ⟨fun _ _ _ _ _ _ h => initPool_err h,
   fun _ _ _ h => join_err h,
   fun _ _ _ _ h => set_pool_winner_err h,
   fun _ _ _ h => start_new_iteration_err h⟩

/-- C6 witness: four concrete failures, one per operation, each leaving its
storage unchanged. -/
theorem c6_failed_calls_frame_witness :
    (join authAll 1 lInit).1 = Except.error Err.AlreadyMember ∧
    (join authAll 1 lInit).2 = lInit ∧
    (initPool authAll 1 5 100 Frequency.WEEK lInit).2 = lInit ∧
    (set_pool_winner 9 5 1 lInit).2 = lInit ∧
    (start_new_iteration 3 9 freshL).2 = freshL :=
  ⟨rfl,
   (c6_failed_calls_frame lInit).2.1 authAll 1 Err.AlreadyMember rfl,
   (c6_failed_calls_frame lInit).1 authAll 1 5 100 Frequency.WEEK Err.AlreadyInitialized rfl,
   (c6_failed_calls_frame lInit).2.2.1 9 5 1 Err.IterationNotFound rfl,
   (c6_failed_calls_frame freshL).2.2.2 3 9 Err.NotInitialized rfl⟩

/-- C7 counterexample: user 2 has no subscriber record in `lInit`, so by the
claim `join(2)` should succeed; but `join` also calls `require_auth`, and with
no authorization granted it fails with `Unauthorized` instead. -/
theorem c7_cex_join_unauthorized :
    mapGet 2 st0.subcriber_map = none ∧
    (join authNone 2 lInit).1 = Except.error Err.Unauthorized :=
  ⟨rfl, rfl⟩

/-- C7 (amended): for a user carrying a valid authorization proof, on a pool
whose state is persisted, `join(user)` fails with `AlreadyMember` iff the user
already has a subscriber record; otherwise it succeeds and a subsequent
`get_subscriber_details(user)` returns the record with `winner_at_iter`,
`prize_money` and `prev_due_amount` all zero. -/
theorem c7_join_iff (auth : Address → Bool) (u : Address) (l : Ledger) (st : State)
    (hls : l.state = some st) (hauth : auth u = true) :
    ((join auth u l).1 = Except.error Err.AlreadyMember ↔
      containsKey u st.subcriber_map = true) ∧
    (containsKey u st.subcriber_map = false →
      (join auth u l).1 = Except.ok () ∧
      (get_subscriber_details u (join auth u l).2).1 =
        Except.ok { winner_at_iter := 0, prize_money := 0, prev_due_amount := 0 }) := by
  cases hc : containsKey u st.subcriber_map
  · refine ⟨⟨fun h => ?_, fun h => Bool.noConfusion h⟩, fun _ => ⟨?_, ?_⟩⟩
    · rw [join_new hls hc hauth] at h
      exact Except.noConfusion h
    · rw [join_new hls hc hauth]
    · rw [join_new hls hc hauth]
      refine get_subscriber_details_eq ?_
      show mapGet u (mapSet u
        { winner_at_iter := 0, prize_money := 0, prev_due_amount := 0 }
        st.subcriber_map) = _
      exact mapGet_mapSet_self _ _ _
  · refine ⟨⟨fun _ => rfl, fun _ => ?_⟩, fun h => Bool.noConfusion h⟩
    rw [join_member hls hc]

/-- C7 witness: authorized user 2 is not a member of `lInit`, joins
successfully, and then reads back as the all-zero subscriber; and the
`AlreadyMember` iff holds there. -/
theorem c7_join_iff_witness :
    ((join authAll 2 lInit).1 = Except.error Err.AlreadyMember ↔
      containsKey 2 st0.subcriber_map = true) ∧
    (join authAll 2 lInit).1 = Except.ok () ∧
    (get_subscriber_details 2 (join authAll 2 lInit).2).1 =
      Except.ok { winner_at_iter := 0, prize_money := 0, prev_due_amount := 0 } :=
  ⟨(c7_join_iff authAll 2 lInit st0 rfl rfl).1,
   ((c7_join_iff authAll 2 lInit st0 rfl rfl).2 rfl).1,
   ((c7_join_iff authAll 2 lInit st0 rfl rfl).2 rfl).2⟩

/-- C8: on a pool with a persisted state, `start_new_iteration(i, d)` succeeds
and writes back the very same ledger except that the record
`{current_iteration = i, amount_collected = 0, winner = d, prize_money = 0,
dividend_amount = 0}` is stored under `i` (overwriting any record already
there); the marker, `pool_params`, `current_iteration`, the subscriber map and
every other iteration record are untouched. -/
theorem c8_start_new_iteration (i : Nat) (d : Address) (l : Ledger) (st : State)
    (hls : l.state = some st) :
    start_new_iteration i d l = (Except.ok (),
      { l with state := some { st with
        pool_iteration_map := mapSet i
          { current_iteration := i, amount_collected := 0, winner := d,
            prize_money := 0, dividend_amount := 0 }
          st.pool_iteration_map } }) ∧
    iterRecord i (start_new_iteration i d l).2 =
      some { current_iteration := i, amount_collected := 0, winner := d,
             prize_money := 0, dividend_amount := 0 } ∧
    ∀ j : Nat, j ≠ i → iterRecord j (start_new_iteration i d l).2 = iterRecord j l := by
  refine ⟨start_new_iteration_shape hls, ?_,
    fun j hj => start_new_iteration_iterRecord d l hj⟩
  rw [start_new_iteration_shape hls]
  show mapGet i (mapSet i
    { current_iteration := i, amount_collected := 0, winner := d,
      prize_money := 0, dividend_amount := 0 }
    st.pool_iteration_map) = _
  exact mapGet_mapSet_self _ _ _

/-- C8 witness: starting iteration 3 on `lInit` with placeholder 9 stores the
all-zero record and leaves iteration 1's record as it was. -/
theorem c8_start_new_iteration_witness :
    start_new_iteration 3 9 lInit = (Except.ok (),
      { lInit with state := some { st0 with
        pool_iteration_map := mapSet 3
          { current_iteration := 3, amount_collected := 0, winner := 9,
            prize_money := 0, dividend_amount := 0 }
          st0.pool_iteration_map } }) ∧
    iterRecord 1 (start_new_iteration 3 9 lInit).2 = iterRecord 1 lInit :=
  ⟨(c8_start_new_iteration 3 9 lInit st0 rfl).1,
   (c8_start_new_iteration 3 9 lInit st0 rfl).2.2 1 (by decide)⟩

/-- C9: (a) after `start_new_iteration(i, d)`, for as long as no
`set_pool_winner` for `i` succeeds (and `i` is not restarted),
`get_pool_winner(i)` returns the placeholder `d`; (b) right after a successful
`set_pool_winner(i, p, s)` it returns the winner `s`; (c) with the state
present but no record for `i` it fails with the `NotFound` error for
iterations; (d) it never modifies the storage. -/
theorem c9_get_pool_winner :
    (∀ (i : Nat) (d : Address) (l l' : Ledger),
      start_new_iteration i d l = (Except.ok (), l') →
      ∀ ops : List Op, (∀ op ∈ ops, startsIterAt i op = false) →
        winnerSetDuring i l' ops = false →
        (get_pool_winner i (run l' ops)).1 = Except.ok d) ∧
    (∀ (i p : Nat) (s : Address) (l l' : Ledger),
      set_pool_winner i p s l = (Except.ok (), l') →
      (get_pool_winner i l').1 = Except.ok s) ∧
    (∀ (i : Nat) (l : Ledger) (st : State), l.state = some st →
      mapGet i st.pool_iteration_map = none →
      (get_pool_winner i l).1 = Except.error Err.IterationNotFound) ∧
    (∀ (i : Nat) (l : Ledger), (get_pool_winner i l).2 = l) := by
  refine ⟨?_, ?_, fun i l st hls hnone => get_pool_winner_none hls hnone,
    get_pool_winner_snd⟩
  · intro i d l l' h ops hs hw
    obtain ⟨st, hls, hl'⟩ := start_new_iteration_ok_inv h
    have hrec : iterRecord i (run l' ops) =
        some { current_iteration := i, amount_collected := 0, winner := d,
               prize_money := 0, dividend_amount := 0 } := by
      rw [iterRecord_run ops l' hs hw, hl']
      show mapGet i (mapSet i
        { current_iteration := i, amount_collected := 0, winner := d,
          prize_money := 0, dividend_amount := 0 }
        st.pool_iteration_map) = _
      exact mapGet_mapSet_self _ _ _
    exact get_pool_winner_eq hrec
  · intro i p s l l' h
    obtain ⟨st, subr, r0, hls, hms, hw0, hit, hl'⟩ := set_pool_winner_ok_shape h
    have hrec : iterRecord i l' =
        some { r0 with winner := s, prize_money := p,
                       dividend_amount := u32sub r0.amount_collected p } := by
      rw [hl']
      show mapGet i (mapSet i
        { r0 with winner := s, prize_money := p,
                  dividend_amount := u32sub r0.amount_collected p }
        st.pool_iteration_map) = _
      exact mapGet_mapSet_self _ _ _
    exact get_pool_winner_eq hrec

/-- C9 witness: the four behaviours at concrete inputs on `lInit`. -/
theorem c9_get_pool_winner_witness :
    (get_pool_winner 7 (run (start_new_iteration 7 9 lInit).2 [Op.join authAll 8])).1 =
      Except.ok 9 ∧
    (get_pool_winner 2 (set_pool_winner 2 80 1 lInit).2).1 = Except.ok 1 ∧
    (get_pool_winner 11 lInit).1 = Except.error Err.IterationNotFound ∧
    (get_pool_winner 11 lInit).2 = lInit :=
  ⟨c9_get_pool_winner.1 7 9 lInit (start_new_iteration 7 9 lInit).2 rfl
      [Op.join authAll 8]
      (fun op ho => by rw [List.mem_singleton] at ho; subst ho; rfl) rfl,
   c9_get_pool_winner.2.1 2 80 1 lInit (set_pool_winner 2 80 1 lInit).2 rfl,
   c9_get_pool_winner.2.2.1 11 lInit st0 rfl rfl,
   c9_get_pool_winner.2.2.2 11 lInit⟩

/-- C10: `set_pool_winner` and `start_new_iteration` never call
`require_auth` — in this embedding they take no authorization oracle at all,
and for every argument and every storage their result is never the
`Unauthorized` failure: any caller can record winners and create or overwrite
iteration records. -/
theorem c10_no_auth_check :
    (∀ (i p : Nat) (s : Address) (l : Ledger),
      isUnauth (set_pool_winner i p s l).1 = false) ∧
    (∀ (i : Nat) (d : Address) (l : Ledger),
      isUnauth (start_new_iteration i d l).1 = false) := by
  constructor
  · intro i p s l
    unfold set_pool_winner
    split
    · rename_i e heq
      rw [get_state_err heq]
      rfl
    · split
      · rfl
      · split
        · rfl
        · dsimp only
          split
          · rfl
          · rfl
  · intro i d l
    unfold start_new_iteration
    split
    · rename_i e heq
      rw [get_state_err heq]
      rfl
    · rfl

end SnbFi
